import Mathlib

set_option maxRecDepth 1000000

/-!
Verification development for the Space Station Explorer game (src/game.js).

The map is a 2D array of cell codes (0 = floor, 1 = wall, 2 = console),
built once at startup by a fixed sequence of stamping operations; a player
moves on the grid one cell per key press; an isometric renderer projects
grid coordinates to screen coordinates with a camera centred on the player.

The embedding translates the source faithfully:
* the grid is a `List (List Nat)` indexed `map[y][x]` like the JS 2D array;
* each imperative loop nest becomes a fold over the same index ranges;
* the build operations are applied in the exact source order: hub cross
  (lines 101-113), the four buildRoom calls (lines 118-121, each placing
  its consoles immediately after stamping its rectangle, lines 92-98),
  then the four connecting corridors (lines 125-147);
* the movement step (update, lines 165-187) works on Int coordinates and
  processes the four arrow keys in source order, with a bounds check
  guarding every grid access exactly as the `&&` short-circuits do;
* the renderer arithmetic (lines 192-199 and 219-222) is over ℚ, which
  gives the exact values JS doubles give on these integer-valued inputs.
-/

/-- Grid width, MAP_W in the source (line 68). -/
def MAP_W : Nat := 30

/-- Grid height, MAP_H in the source (line 69). -/
def MAP_H : Nat := 30

/-- The grid type: rows of cell codes, indexed `map[y][x]`. -/
abbrev Grid : Type := List (List Nat)

/-- Write cell code `v` at column `x` of row `y` (`map[y][x] = v`).
Out-of-range writes are no-ops of `List.set`; every write performed by the
source build is in range. -/
def setCell (g : Grid) (y x v : Nat) : Grid :=
  List.set g y (List.set (List.getD g y []) x v)

/-- Read the cell code at column `x` of row `y` (`map[y][x]`), for indices
known to be in range. -/
def getCell (g : Grid) (y x : Nat) : Nat :=
  List.getD (List.getD g y []) x 0

/-- The initial grid: everything floor (source lines 70-77). -/
def initMap : Grid :=
  List.replicate MAP_H (List.replicate MAP_W 0)

/-- The hub column, `hubX = Math.floor(MAP_W / 2)` (source line 102). -/
def hubX : Nat := MAP_W / 2

/-- The hub row, `hubY = Math.floor(MAP_H / 2)` (source line 103). -/
def hubY : Nat := MAP_H / 2

/-- Stamp the rectangle of a room: the perimeter becomes wall, the
interior floor (source lines 81-90). -/
def buildRoomRect (x0 y0 x1 y1 : Nat) (g : Grid) : Grid :=
  (List.range' y0 (y1 + 1 - y0)).foldl (fun g y =>
    (List.range' x0 (x1 + 1 - x0)).foldl (fun g x =>
      setCell g y x (if y = y0 ∨ y = y1 ∨ x = x0 ∨ x = x1 then 1 else 0)) g) g

/-- Place the consoles of a room: a coordinate strictly inside the room
interior is set to 2, any other coordinate is dropped (source lines
92-98). -/
def placeConsoles (x0 y0 x1 y1 : Nat) (consolePositions : List (Nat × Nat))
    (g : Grid) : Grid :=
  consolePositions.foldl (fun g pos =>
    if x0 + 1 ≤ pos.1 ∧ pos.1 ≤ x1 - 1 ∧ y0 + 1 ≤ pos.2 ∧ pos.2 ≤ y1 - 1 then
      setCell g pos.2 pos.1 2
    else g) g

/-- buildRoom (source lines 80-99): stamp the rectangle, then place the
consoles of that room. -/
def buildRoom (x0 y0 x1 y1 : Nat) (consolePositions : List (Nat × Nat))
    (g : Grid) : Grid :=
  placeConsoles x0 y0 x1 y1 consolePositions (buildRoomRect x0 y0 x1 y1 g)

/-- Carve one full row to floor (inner loop of source lines 104-108). -/
def carveRow (g : Grid) (y : Nat) : Grid :=
  (List.range MAP_W).foldl (fun g i => setCell g y i 0) g

/-- Carve one full column to floor (inner loop of source lines 109-113). -/
def carveCol (g : Grid) (x : Nat) : Grid :=
  (List.range MAP_H).foldl (fun g j => setCell g j x 0) g

/-- The central hub cross: rows hubY-1..hubY+1, then columns
hubX-1..hubX+1, carved to floor (source lines 101-113). -/
def buildCross (g : Grid) : Grid :=
  (List.range 3).foldl (fun g d => carveCol g (hubX - 1 + d))
    ((List.range 3).foldl (fun g d => carveRow g (hubY - 1 + d)) g)

/-- One room of the station: rectangle corners plus console positions. -/
structure RoomSpec where
  x0 : Nat
  y0 : Nat
  x1 : Nat
  y1 : Nat
  consoles : List (Nat × Nat)

/-- North lab (source line 118). -/
def northLab : RoomSpec := ⟨hubX - 3, 0, hubX + 3, 7, [(hubX, 3)]⟩

/-- South engineering (source line 119). -/
def southEngineering : RoomSpec :=
  ⟨hubX - 3, MAP_H - 8, hubX + 3, MAP_H - 1, [(hubX, MAP_H - 4)]⟩

/-- East quarters (source line 120). -/
def eastQuarters : RoomSpec :=
  ⟨MAP_W - 8, hubY - 3, MAP_W - 1, hubY + 3, [(MAP_W - 4, hubY)]⟩

/-- West hydroponics (source line 121). -/
def westHydroponics : RoomSpec := ⟨0, hubY - 3, 7, hubY + 3, [(3, hubY)]⟩

/-- The four rooms in source call order (lines 118-121). -/
def rooms : List RoomSpec :=
  [northLab, southEngineering, eastQuarters, westHydroponics]

/-- The four buildRoom calls (source lines 118-121), in order. -/
def buildRooms (g : Grid) : Grid :=
  rooms.foldl (fun g r => buildRoom r.x0 r.y0 r.x1 r.y1 r.consoles g) g

/-- The four connecting corridors (source lines 125-147): three-cell-wide
strips between the cross and each room boundary; north, south, east, west
in order, each carving to floor. -/
def buildCorridors (g : Grid) : Grid :=
  let gN := (List.range' 8 (hubY - 1 - 8)).foldl (fun g y =>
    (List.range 3).foldl (fun g d => setCell g y (hubX - 1 + d) 0) g) g
  let gS := (List.range' (hubY + 2) (MAP_H - 8 - (hubY + 2))).foldl (fun g y =>
    (List.range 3).foldl (fun g d => setCell g y (hubX - 1 + d) 0) g) gN
  let gE := (List.range' (hubX + 2) (MAP_W - 8 - (hubX + 2))).foldl (fun g x =>
    (List.range 3).foldl (fun g d => setCell g (hubY - 1 + d) x 0) g) gS
  (List.range' 8 (hubX - 1 - 8)).foldl (fun g x =>
    (List.range 3).foldl (fun g d => setCell g (hubY - 1 + d) x 0) g) gE

/-- The complete startup build, in the exact source order: all-floor grid,
hub cross, rooms (each with its consoles), connecting corridors. -/
def gameMap : Grid :=
  buildCorridors (buildRooms (buildCross initMap))

/-- Modelled from the claim wording (spec section 4.1 edge cases): the
same stamping operations reordered as the claim asserts them to run —
room rectangles first, then the hub cross, then the connecting corridors,
then the console cells last.  Compared against `gameMap`, which the source
builds in a different order (cross before rooms, consoles inside the room
step). -/
def claimOrderMap : Grid :=
  (rooms.foldl (fun g r => placeConsoles r.x0 r.y0 r.x1 r.y1 r.consoles g)
    (buildCorridors (buildCross
      (rooms.foldl (fun g r => buildRoomRect r.x0 r.y0 r.x1 r.y1 g) initMap))))

/-- Player state (source lines 150-154): grid coordinates plus the fixed
tiles-per-key-press speed. -/
structure Player where
  x : Int
  y : Int
  speed : Int
  deriving DecidableEq

/-- The initial player, at the hub (source lines 150-154). -/
def initPlayer : Player := ⟨hubX, hubY, 1⟩

/-- Pressed state of the four arrow keys consumed by one update call. -/
structure Keys where
  up : Bool
  down : Bool
  left : Bool
  right : Bool

/-- Read `map[y][x]` with possibly signed indices the way the movement
code does: a valid column of a valid row gives its code, an out-of-range
column of a valid row gives none (JS yields undefined, which passes the
`!== 1` test).  An out-of-range row would throw in JS; in the movement
step every row access sits behind a bounds guard that keeps the row index
in range whenever the player position is in range, so that case is
unreachable there (it is mapped to none). -/
def cellAt (g : Grid) (y x : Int) : Option Nat :=
  if 0 ≤ y ∧ y < (g.length : Int) then
    let row := List.getD g y.toNat []
    if 0 ≤ x ∧ x < (row.length : Int) then some (List.getD row x.toNat 0)
    else none
  else none

/-- The four movement directions of the arrow keys. -/
inductive Dir
  | up
  | down
  | left
  | right
  deriving DecidableEq

/-- One directional branch of update (source lines 167-186): offset the
position by speed along the axis, accept iff the bounds guard and the
wall test pass. -/
def moveStep (g : Grid) (p : Player) (d : Dir) : Player :=
  match d with
  | Dir.up =>
    let newY := p.y - p.speed
    if 0 ≤ newY ∧ cellAt g newY p.x ≠ some 1 then { p with y := newY } else p
  | Dir.down =>
    let newY := p.y + p.speed
    if newY < (MAP_H : Int) ∧ cellAt g newY p.x ≠ some 1 then { p with y := newY }
    else p
  | Dir.left =>
    let newX := p.x - p.speed
    if 0 ≤ newX ∧ cellAt g p.y newX ≠ some 1 then { p with x := newX } else p
  | Dir.right =>
    let newX := p.x + p.speed
    if newX < (MAP_W : Int) ∧ cellAt g p.y newX ≠ some 1 then { p with x := newX }
    else p

/-- The movement step update (source lines 165-187): the four arrow keys
are processed in source order up, down, left, right, each branch checking
bounds and wall against the position as already updated by the earlier
branches of the same call. -/
def update (g : Grid) (k : Keys) (p : Player) : Player :=
  let p1 :=
    if k.up then
      let newY := p.y - p.speed
      if 0 ≤ newY ∧ cellAt g newY p.x ≠ some 1 then { p with y := newY } else p
    else p
  let p2 :=
    if k.down then
      let newY := p1.y + p1.speed
      if newY < (MAP_H : Int) ∧ cellAt g newY p1.x ≠ some 1 then { p1 with y := newY }
      else p1
    else p1
  let p3 :=
    if k.left then
      let newX := p2.x - p2.speed
      if 0 ≤ newX ∧ cellAt g p2.y newX ≠ some 1 then { p2 with x := newX } else p2
    else p2
  if k.right then
    let newX := p3.x + p3.speed
    if newX < (MAP_W : Int) ∧ cellAt g p3.y newX ≠ some 1 then { p3 with x := newX }
    else p3
  else p3

/-- A guarded single-direction step: apply the branch only when its key is
pressed. -/
def stepIfPressed (g : Grid) (b : Bool) (d : Dir) (p : Player) : Player :=
  if b then moveStep g p d else p

/-- The candidate position of a directional input: the current position
offset by speed along the axis of the direction. -/
def candidate (p : Player) (d : Dir) : Int × Int :=
  match d with
  | Dir.up => (p.x, p.y - p.speed)
  | Dir.down => (p.x, p.y + p.speed)
  | Dir.left => (p.x - p.speed, p.y)
  | Dir.right => (p.x + p.speed, p.y)

/-- A coordinate pair within the grid bounds. -/
def inGrid (q : Int × Int) : Prop :=
  0 ≤ q.1 ∧ q.1 < (MAP_W : Int) ∧ 0 ≤ q.2 ∧ q.2 < (MAP_H : Int)

/-- The player invariant: integer coordinates inside the grid bounds on a
non-wall cell, with the fixed speed of one tile per key press. -/
def PlayerInv (p : Player) : Prop :=
  inGrid (p.x, p.y) ∧ getCell gameMap p.y.toNat p.x.toNat ≠ 1 ∧ p.speed = 1

/-- Tile width in pixels, TILE_W (source line 28). -/
def TILE_W : ℚ := 128

/-- Tile height in pixels, TILE_H (source line 29). -/
def TILE_H : ℚ := 64

/-- Camera x offset (source line 192). -/
def offsetX (w px py : ℚ) : ℚ :=
  w / 2 - (px - py) * (TILE_W / 2) - TILE_W / 2

/-- Camera y offset (source line 193). -/
def offsetY (h px py : ℚ) : ℚ :=
  h / 2 - (px + py) * (TILE_H / 2) - TILE_H

/-- Isometric x projection of a grid cell (source line 198). -/
def isoX (x y offX : ℚ) : ℚ := (x - y) * (TILE_W / 2) + offX

/-- Isometric y projection of a grid cell (source line 199). -/
def isoY (x y offY : ℚ) : ℚ := (x + y) * (TILE_H / 2) + offY

/-- Projected screen position of the player tile, x part (source line
219). -/
def playerScreenX (px py offX : ℚ) : ℚ := (px - py) * (TILE_W / 2) + offX

/-- Projected screen position of the player tile, y part (source line
220). -/
def playerScreenY (px py offY : ℚ) : ℚ := (px + py) * (TILE_H / 2) + offY

/-- Modelled from the spec: the inverse isometric projection of the
round-trip property (spec section 8).  The source has no picking code, so
the inverse is the solution of the projection equations for x and y given
the same camera offset. -/
def invProject (sx sy offX offY : ℚ) : ℚ × ℚ :=
  ((((sx - offX) / (TILE_W / 2)) + ((sy - offY) / (TILE_H / 2))) / 2,
   (((sy - offY) / (TILE_H / 2)) - ((sx - offX) / (TILE_W / 2))) / 2)

/-- The sprite kinds the renderer draws (source lines 201-226). -/
inductive Sprite
  | floorTile
  | wallBlock
  | consoleBlock
  | playerMarker
  deriving DecidableEq

/-- One draw command: sprite kind, screen x, screen y, width, height. -/
abbrev DrawCmd : Type := Sprite × ℚ × ℚ × ℚ × ℚ

/-- The draw commands of one grid cell (source lines 198-211): the floor
sprite always, then a double-height wall or console sprite shifted up so
its base aligns with the floor tile. -/
def tileDraws (g : Grid) (x y : Nat) (offX offY : ℚ) : List DrawCmd :=
  let ix := isoX x y offX
  let iy := isoY x y offY
  (Sprite.floorTile, ix, iy, TILE_W, TILE_H) ::
    (if getCell g y x = 1 then
      [(Sprite.wallBlock, ix, iy - (TILE_H * 2 - TILE_H), TILE_W, TILE_H * 2)]
    else if getCell g y x = 2 then
      [(Sprite.consoleBlock, ix, iy - (TILE_H * 2 - TILE_H), TILE_W, TILE_H * 2)]
    else [])

/-- The full draw list of one frame (source lines 189-227): all cells in
row-major order, then the player marker ellipse centred on the player
tile, drawn last. -/
def drawList (g : Grid) (p : Player) (w h : ℚ) : List DrawCmd :=
  let offX := offsetX w p.x p.y
  let offY := offsetY h p.x p.y
  ((List.range MAP_H).flatMap (fun y =>
    (List.range MAP_W).flatMap (fun x => tileDraws g x y offX offY))) ++
    [(Sprite.playerMarker,
      playerScreenX p.x p.y offX + TILE_W / 2,
      playerScreenY p.x p.y offY + TILE_H / 2,
      TILE_W * (1 / 4), TILE_H * (1 / 4))]

/-- The mutable game state: the grid and the player (the source holds both
as globals; the grid is only ever written during the startup build). -/
structure GameState where
  map : Grid
  player : Player

/-- One frame of the loop (source lines 229-233): the movement step, then
the renderer on the resulting state. -/
def frame (k : Keys) (w h : ℚ) (s : GameState) : GameState × List DrawCmd :=
  let s2 : GameState := ⟨s.map, update s.map k s.player⟩
  (s2, drawList s2.map s2.player w h)

/-- Four-adjacency of grid coordinates: one step along one axis. -/
def adjacent (p q : Nat × Nat) : Prop :=
  (p.1 = q.1 ∧ (p.2 + 1 = q.2 ∨ q.2 + 1 = p.2)) ∨
    (p.2 = q.2 ∧ (p.1 + 1 = q.1 ∨ q.1 + 1 = p.1))

/-- A cell a path may use: inside the grid and not a wall. -/
def walkable (g : Grid) (p : Nat × Nat) : Prop :=
  p.1 < MAP_W ∧ p.2 < MAP_H ∧ getCell g p.2 p.1 ≠ 1

/-- Connectivity through 4-adjacent non-wall cells, from a fixed start. -/
inductive ReachableFrom (g : Grid) (s : Nat × Nat) : Nat × Nat → Prop
  | base : walkable g s → ReachableFrom g s s
  | step {b c : Nat × Nat} : ReachableFrom g s b → adjacent b c → walkable g c →
      ReachableFrom g s c

/-- A coordinate strictly inside the interior of a room (one cell in from
every border). -/
def roomInterior (r : RoomSpec) (p : Nat × Nat) : Prop :=
  r.x0 + 1 ≤ p.1 ∧ p.1 + 1 ≤ r.x1 ∧ r.y0 + 1 ≤ p.2 ∧ p.2 + 1 ≤ r.y1

/-- A coordinate on the border of one of the four room rectangles. -/
def onRoomBorder (x y : Nat) : Prop :=
  ∃ r ∈ rooms, (r.x0 ≤ x ∧ x ≤ r.x1 ∧ r.y0 ≤ y ∧ y ≤ r.y1) ∧
    (x = r.x0 ∨ x = r.x1 ∨ y = r.y0 ∨ y = r.y1)

instance (q : Int × Int) : Decidable (inGrid q) := by
  unfold inGrid; infer_instance

instance (p : Player) : Decidable (PlayerInv p) := by
  unfold PlayerInv; infer_instance

instance (x y : Nat) : Decidable (onRoomBorder x y) := by
  unfold onRoomBorder; infer_instance

instance (r : RoomSpec) (p : Nat × Nat) : Decidable (roomInterior r p) := by
  unfold roomInterior; infer_instance

instance (g : Grid) (p : Nat × Nat) : Decidable (walkable g p) := by
  unfold walkable; infer_instance

/-- Writing a cell and reading it back gives the written value, when the
coordinate is in range of the grid. -/
theorem getCell_setCell_self (g : Grid) (y x v : Nat) (hy : y < g.length)
    (hx : x < (List.getD g y []).length) :
    getCell (setCell g y x v) y x = v := by
  unfold getCell setCell
  have h1 : List.getD (List.set g y ((List.getD g y []).set x v)) y [] =
      (List.getD g y []).set x v := by
    rw [List.getD_eq_getElem _ _ (by simpa using hy)]
    exact List.getElem_set_self _
  rw [h1, List.getD_eq_getElem _ _ (by simpa using hx)]
  exact List.getElem_set_self _

/-- The built grid has 30 rows of 30 cells. -/
theorem gameMap_shape :
    gameMap.length = MAP_H ∧
      ∀ y, y < MAP_H → (List.getD gameMap y []).length = MAP_W := by
  exact ⟨by decide, by decide⟩

/-- For indices inside the grid bounds, the guarded signed read agrees
with the plain read. -/
theorem cellAt_gameMap (y x : Int) (hy0 : 0 ≤ y) (hy : y < (MAP_H : Int))
    (hx0 : 0 ≤ x) (hx : x < (MAP_W : Int)) :
    cellAt gameMap y x = some (getCell gameMap y.toNat x.toNat) := by
  unfold cellAt getCell
  have h1 : gameMap.length = MAP_H := gameMap_shape.1
  have h2 : (List.getD gameMap y.toNat []).length = MAP_W :=
    gameMap_shape.2 y.toNat (by omega)
  rw [if_pos (by rw [h1]; exact ⟨hy0, hy⟩),
    if_pos (by rw [h2]; exact ⟨hx0, hx⟩)]

/-- The update call is the sequential composition of the four guarded
directional steps, in source order up, down, left, right. -/
theorem update_eq_steps (g : Grid) (k : Keys) (p : Player) :
    update g k p =
      stepIfPressed g k.right Dir.right (stepIfPressed g k.left Dir.left
        (stepIfPressed g k.down Dir.down (stepIfPressed g k.up Dir.up p))) := rfl

/-- A directional step never changes the speed field. -/
theorem moveStep_speed (g : Grid) (p : Player) (d : Dir) :
    (moveStep g p d).speed = p.speed := by
  cases d <;> simp only [moveStep] <;> split <;> rfl

/-- A guarded directional step never changes the speed field. -/
theorem stepIfPressed_speed (g : Grid) (b : Bool) (d : Dir) (p : Player) :
    (stepIfPressed g b d p).speed = p.speed := by
  cases b <;> simp [stepIfPressed, moveStep_speed]

/-- Claim C2 counterexample: at cell (x, y) = (14, 7) the grid built in
the order the claim asserts (rooms, cross, corridors, consoles) carries
floor, because the hub cross would carve through the north room wall
after the rooms were stamped; the grid the source actually builds carries
wall there. -/
theorem buildOrder_claim_counterexample :
    getCell claimOrderMap 7 14 = 0 ∧ getCell gameMap 7 14 = 1 :=
  ⟨by decide, by decide⟩

/-- Claim C2 (amended): the map is built by the fixed deterministic
sequence hub cross, then room rectangles (each immediately followed by
its console cells), then connecting corridors; a later write to a cell is
the value read back afterwards, and at the overlap cell (14, 7) the room
wall written after the cross is the kind present in the final grid. -/
theorem buildOrder_actual :
    gameMap = buildCorridors (buildRooms (buildCross initMap)) ∧
    (∀ (g : Grid) (y x v : Nat), y < g.length →
      x < (List.getD g y []).length → getCell (setCell g y x v) y x = v) ∧
    getCell (buildCross initMap) 7 14 = 0 ∧
    getCell (buildRooms (buildCross initMap)) 7 14 = 1 ∧
    getCell gameMap 7 14 = 1 :=
  ⟨rfl, getCell_setCell_self, by decide, by decide, by decide⟩

/-- Claim C5: every cell on the border of any of the four room rectangles
is wall both right after the room stamping stage and in the finished
grid, so the corridor and console steps never overwrite a room border
cell. -/
theorem roomBorders_are_wall :
    ∀ y, y < MAP_H → ∀ x, x < MAP_W → onRoomBorder x y →
      getCell (buildRooms (buildCross initMap)) y x = 1 ∧
        getCell gameMap y x = 1 := by decide

/-- Witness for claim C5 at the north-west corner of the north lab. -/
theorem roomBorders_are_wall_witness :
    getCell gameMap 0 12 = 1 :=
  (roomBorders_are_wall 0 (by decide) 12 (by decide) (by decide)).2

/-- Claim C6: a console coordinate supplied with a room is written as
console exactly when it lies strictly inside the room interior, and is
dropped (the cell keeps the value the rectangle stamping gave it)
otherwise; in the built grid all four supplied consoles sit strictly
inside and are present. -/
theorem consoles_strictly_inside :
    (∀ (g : Grid) (x0 y0 x1 y1 cx cy : Nat),
        cy < (buildRoomRect x0 y0 x1 y1 g).length →
        cx < (List.getD (buildRoomRect x0 y0 x1 y1 g) cy []).length →
        getCell (buildRoom x0 y0 x1 y1 [(cx, cy)] g) cy cx =
          if x0 + 1 ≤ cx ∧ cx ≤ x1 - 1 ∧ y0 + 1 ≤ cy ∧ cy ≤ y1 - 1 then 2
          else getCell (buildRoomRect x0 y0 x1 y1 g) cy cx) ∧
    getCell gameMap 3 15 = 2 ∧ getCell gameMap 26 15 = 2 ∧
    getCell gameMap 15 26 = 2 ∧ getCell gameMap 15 3 = 2 := by
  refine ⟨?_, by decide, by decide, by decide, by decide⟩
  intro g x0 y0 x1 y1 cx cy h1 h2
  unfold buildRoom placeConsoles
  simp only [List.foldl_cons, List.foldl_nil]
  split
  · exact getCell_setCell_self _ _ _ _ h1 h2
  · rfl

/-- Claim C7: with the camera offsets of the source, the projected screen
position of the player tile is the centre of the viewport shifted by half
a tile width and a full tile height, for every player position and every
viewport size. -/
theorem camera_centers_player :
    ∀ w h px py : ℚ,
      playerScreenX px py (offsetX w px py) = w / 2 - TILE_W / 2 ∧
      playerScreenY px py (offsetY h px py) = h / 2 - TILE_H := by
  intro w h px py
  constructor
  · unfold playerScreenX offsetX; ring
  · unfold playerScreenY offsetY; ring

/-- Claim C8: the inverse projection applied with the same camera offsets
recovers every integer grid coordinate exactly. -/
theorem isoProjection_roundTrip :
    ∀ (x y : ℤ) (offX offY : ℚ),
      invProject (isoX (x : ℚ) (y : ℚ) offX) (isoY (x : ℚ) (y : ℚ) offY)
        offX offY = ((x : ℚ), (y : ℚ)) := by
  intro x y offX offY
  unfold invProject isoX isoY TILE_W TILE_H
  rw [Prod.mk.injEq]
  constructor <;> ring

/-- Claim C9: one frame of the loop leaves the grid untouched (the
movement step returns the grid it was given and the renderer only turns
it into a draw list), and the movement step only ever changes the
position fields of the player. -/
theorem frame_preserves_grid :
    ∀ (k : Keys) (w h : ℚ) (s : GameState),
      ((frame k w h s).1).map = s.map ∧
      ∀ (g : Grid) (p : Player), (update g k p).speed = p.speed := by
  intro k w h s
  refine ⟨rfl, fun g p => ?_⟩
  rw [update_eq_steps]
  simp [stepIfPressed_speed]

/-- Claim C10: one update call is the sequential composition of the four
guarded directional branches in the fixed order up, down, left, right,
each checking against the already-updated position; pressing up and left
together at the hub moves both coordinates in the single call. -/
theorem update_order_and_diagonal :
    (∀ (g : Grid) (k : Keys) (p : Player),
        update g k p =
          stepIfPressed g k.right Dir.right (stepIfPressed g k.left Dir.left
            (stepIfPressed g k.down Dir.down (stepIfPressed g k.up Dir.up p)))) ∧
    (update gameMap ⟨true, false, true, false⟩ initPlayer).x ≠ initPlayer.x ∧
    (update gameMap ⟨true, false, true, false⟩ initPlayer).y ≠ initPlayer.y :=
  ⟨update_eq_steps, by decide, by decide⟩

/-- Claim C3: for an in-bounds player with the fixed speed of one tile, a
directional input moves the position by exactly one cell along the axis
of the direction iff the candidate cell is inside the grid bounds and its
cell kind is not wall; otherwise the position is unchanged. -/
theorem moveStep_accepts_iff (p : Player) (d : Dir)
    (hp : inGrid (p.x, p.y)) (hs : p.speed = 1) :
    moveStep gameMap p d =
      if inGrid (candidate p d) ∧
          getCell gameMap (candidate p d).2.toNat (candidate p d).1.toNat ≠ 1 then
        { p with x := (candidate p d).1, y := (candidate p d).2 }
      else p := by
  obtain ⟨hx0p, hx1p, hy0p, hy1p⟩ := hp
  have hx0 : (0 : Int) ≤ p.x := hx0p
  have hx1 : p.x < (MAP_W : Int) := hx1p
  have hy0 : (0 : Int) ≤ p.y := hy0p
  have hy1 : p.y < (MAP_H : Int) := hy1p
  cases d
  case up =>
    dsimp only [moveStep, candidate, inGrid]
    rw [hs]
    by_cases hg : 0 ≤ p.y - 1
    · rw [cellAt_gameMap (p.y - 1) p.x hg (by omega) hx0 hx1]
      by_cases hw : getCell gameMap (p.y - 1).toNat p.x.toNat = 1
      · rw [if_neg (fun h => h.2 (congrArg some hw)), if_neg (fun h => h.2 hw)]
      · have hlt : p.y - 1 < (MAP_H : Int) := by omega
        rw [if_pos ⟨hg, fun h => hw (Option.some.inj h)⟩,
          if_pos ⟨⟨hx0, hx1, hg, hlt⟩, hw⟩]
    · rw [if_neg (fun h => hg h.1), if_neg (fun h => hg h.1.2.2.1)]
  case down =>
    dsimp only [moveStep, candidate, inGrid]
    rw [hs]
    by_cases hg : p.y + 1 < (MAP_H : Int)
    · rw [cellAt_gameMap (p.y + 1) p.x (by omega) hg hx0 hx1]
      by_cases hw : getCell gameMap (p.y + 1).toNat p.x.toNat = 1
      · rw [if_neg (fun h => h.2 (congrArg some hw)), if_neg (fun h => h.2 hw)]
      · have hge : (0 : Int) ≤ p.y + 1 := by omega
        rw [if_pos ⟨hg, fun h => hw (Option.some.inj h)⟩,
          if_pos ⟨⟨hx0, hx1, hge, hg⟩, hw⟩]
    · rw [if_neg (fun h => hg h.1), if_neg (fun h => hg h.1.2.2.2)]
  case left =>
    dsimp only [moveStep, candidate, inGrid]
    rw [hs]
    by_cases hg : 0 ≤ p.x - 1
    · rw [cellAt_gameMap p.y (p.x - 1) hy0 hy1 hg (by omega)]
      by_cases hw : getCell gameMap p.y.toNat (p.x - 1).toNat = 1
      · rw [if_neg (fun h => h.2 (congrArg some hw)), if_neg (fun h => h.2 hw)]
      · have hlt : p.x - 1 < (MAP_W : Int) := by omega
        rw [if_pos ⟨hg, fun h => hw (Option.some.inj h)⟩,
          if_pos ⟨⟨hg, hlt, hy0, hy1⟩, hw⟩]
    · rw [if_neg (fun h => hg h.1), if_neg (fun h => hg h.1.1)]
  case right =>
    dsimp only [moveStep, candidate, inGrid]
    rw [hs]
    by_cases hg : p.x + 1 < (MAP_W : Int)
    · rw [cellAt_gameMap p.y (p.x + 1) hy0 hy1 (by omega) hg]
      by_cases hw : getCell gameMap p.y.toNat (p.x + 1).toNat = 1
      · rw [if_neg (fun h => h.2 (congrArg some hw)), if_neg (fun h => h.2 hw)]
      · have hge : (0 : Int) ≤ p.x + 1 := by omega
        rw [if_pos ⟨hg, fun h => hw (Option.some.inj h)⟩,
          if_pos ⟨⟨hge, hg, hy0, hy1⟩, hw⟩]
    · rw [if_neg (fun h => hg h.1), if_neg (fun h => hg h.1.2.1)]

/-- Witness for claim C3: at the hub, an up input moves the player one
cell north. -/
theorem moveStep_accepts_iff_witness :
    moveStep gameMap initPlayer Dir.up = { initPlayer with y := 14 } := by
  have h := moveStep_accepts_iff initPlayer Dir.up (by decide) rfl
  rw [h]
  decide

/-- A directional step on the built map preserves the player invariant. -/
theorem moveStep_inv (p : Player) (d : Dir) (h : PlayerInv p) :
    PlayerInv (moveStep gameMap p d) := by
  obtain ⟨⟨hx0p, hx1p, hy0p, hy1p⟩, hw, hs⟩ := h
  have hx0 : (0 : Int) ≤ p.x := hx0p
  have hx1 : p.x < (MAP_W : Int) := hx1p
  have hy0 : (0 : Int) ≤ p.y := hy0p
  have hy1 : p.y < (MAP_H : Int) := hy1p
  cases d
  case up =>
    dsimp only [moveStep]
    rw [hs]
    by_cases hg : 0 ≤ p.y - 1
    · rw [cellAt_gameMap (p.y - 1) p.x hg (by omega) hx0 hx1]
      by_cases hwall : getCell gameMap (p.y - 1).toNat p.x.toNat = 1
      · rw [if_neg (fun h => h.2 (congrArg some hwall))]
        exact ⟨⟨hx0, hx1, hy0, hy1⟩, hw, hs⟩
      · have hlt : p.y - 1 < (MAP_H : Int) := by omega
        rw [if_pos ⟨hg, fun h => hwall (Option.some.inj h)⟩]
        exact ⟨⟨hx0, hx1, hg, hlt⟩, hwall, rfl⟩
    · rw [if_neg (fun h => hg h.1)]
      exact ⟨⟨hx0, hx1, hy0, hy1⟩, hw, hs⟩
  case down =>
    dsimp only [moveStep]
    rw [hs]
    by_cases hg : p.y + 1 < (MAP_H : Int)
    · rw [cellAt_gameMap (p.y + 1) p.x (by omega) hg hx0 hx1]
      by_cases hwall : getCell gameMap (p.y + 1).toNat p.x.toNat = 1
      · rw [if_neg (fun h => h.2 (congrArg some hwall))]
        exact ⟨⟨hx0, hx1, hy0, hy1⟩, hw, hs⟩
      · have hge : (0 : Int) ≤ p.y + 1 := by omega
        rw [if_pos ⟨hg, fun h => hwall (Option.some.inj h)⟩]
        exact ⟨⟨hx0, hx1, hge, hg⟩, hwall, rfl⟩
    · rw [if_neg (fun h => hg h.1)]
      exact ⟨⟨hx0, hx1, hy0, hy1⟩, hw, hs⟩
  case left =>
    dsimp only [moveStep]
    rw [hs]
    by_cases hg : 0 ≤ p.x - 1
    · rw [cellAt_gameMap p.y (p.x - 1) hy0 hy1 hg (by omega)]
      by_cases hwall : getCell gameMap p.y.toNat (p.x - 1).toNat = 1
      · rw [if_neg (fun h => h.2 (congrArg some hwall))]
        exact ⟨⟨hx0, hx1, hy0, hy1⟩, hw, hs⟩
      · have hlt : p.x - 1 < (MAP_W : Int) := by omega
        rw [if_pos ⟨hg, fun h => hwall (Option.some.inj h)⟩]
        exact ⟨⟨hg, hlt, hy0, hy1⟩, hwall, rfl⟩
    · rw [if_neg (fun h => hg h.1)]
      exact ⟨⟨hx0, hx1, hy0, hy1⟩, hw, hs⟩
  case right =>
    dsimp only [moveStep]
    rw [hs]
    by_cases hg : p.x + 1 < (MAP_W : Int)
    · rw [cellAt_gameMap p.y (p.x + 1) hy0 hy1 (by omega) hg]
      by_cases hwall : getCell gameMap p.y.toNat (p.x + 1).toNat = 1
      · rw [if_neg (fun h => h.2 (congrArg some hwall))]
        exact ⟨⟨hx0, hx1, hy0, hy1⟩, hw, hs⟩
      · have hge : (0 : Int) ≤ p.x + 1 := by omega
        rw [if_pos ⟨hg, fun h => hwall (Option.some.inj h)⟩]
        exact ⟨⟨hge, hg, hy0, hy1⟩, hwall, rfl⟩
    · rw [if_neg (fun h => hg h.1)]
      exact ⟨⟨hx0, hx1, hy0, hy1⟩, hw, hs⟩

/-- A guarded directional step preserves the player invariant. -/
theorem stepIfPressed_inv (b : Bool) (d : Dir) (p : Player)
    (h : PlayerInv p) : PlayerInv (stepIfPressed gameMap b d p) := by
  cases b
  · exact h
  · exact moveStep_inv p d h

/-- Claim C4: the initial player position is in bounds on a non-wall cell
with speed one, and every update call preserves that invariant. -/
theorem player_position_invariant :
    PlayerInv initPlayer ∧
      ∀ (k : Keys) (p : Player), PlayerInv p → PlayerInv (update gameMap k p) := by
  refine ⟨by decide, fun k p hp => ?_⟩
  rw [update_eq_steps]
  exact stepIfPressed_inv _ _ _ (stepIfPressed_inv _ _ _
    (stepIfPressed_inv _ _ _ (stepIfPressed_inv _ _ _ hp)))

/-- Every cell of the north lab border is wall in the built grid. -/
theorem northBorder_wall :
    ∀ x, x < MAP_W → ∀ y, y < MAP_H →
      (12 ≤ x ∧ x ≤ 18 ∧ y ≤ 7 ∧ (x = 12 ∨ x = 18 ∨ y = 0 ∨ y = 7)) →
      getCell gameMap y x = 1 := by decide

/-- Any cell reachable from the north lab console through 4-adjacent
non-wall cells stays strictly inside the north lab: its wall ring is
unbroken in the built grid. -/
theorem reach_from_north_console_stays_inside :
    ∀ q, ReachableFrom gameMap (hubX, 3) q → roomInterior northLab q := by
  intro q h
  induction h with
  | base hw => exact (by decide : roomInterior northLab (hubX, 3))
  | @step b c hr hadj hw ih =>
    have hn : (13 : Nat) ≤ b.1 ∧ b.1 + 1 ≤ 18 ∧ 1 ≤ b.2 ∧ b.2 + 1 ≤ 7 :=
      ⟨ih.1, ih.2.1, ih.2.2.1, ih.2.2.2⟩
    obtain ⟨hb1, hb2, hb3, hb4⟩ := hn
    obtain ⟨hc1, hc2, hc3⟩ := hw
    have hc1n : c.1 < 30 := hc1
    have hc2n : c.2 < 30 := hc2
    refine (show 13 ≤ c.1 ∧ c.1 + 1 ≤ 18 ∧ 1 ≤ c.2 ∧ c.2 + 1 ≤ 7 →
        roomInterior northLab c from fun h => ⟨h.1, h.2.1, h.2.2.1, h.2.2.2⟩) ?_
    by_contra hc
    have hborder : 12 ≤ c.1 ∧ c.1 ≤ 18 ∧ c.2 ≤ 7 ∧
        (c.1 = 12 ∨ c.1 = 18 ∨ c.2 = 0 ∨ c.2 = 7) := by
      rcases hadj with ⟨he, hv | hv⟩ | ⟨he, hv | hv⟩ <;> omega
    exact hc3 (northBorder_wall c.1 (by omega) c.2 (by omega) hborder)

/-- Claim C1 refuted on the code: the hub cell is floor, but no path of
4-adjacent non-wall cells connects the north lab interior to the hub —
the room keeps an unbroken wall perimeter because the rooms are stamped
after the hub cross and the connecting corridors stop one cell short of
the room boundary. -/
theorem hub_is_floor_but_north_room_sealed :
    getCell gameMap hubY hubX = 0 ∧
      ¬ ReachableFrom gameMap (hubX, 3) (hubX, hubY) := by
  refine ⟨by decide, fun h => ?_⟩
  exact absurd (reach_from_north_console_stays_inside _ h) (by decide)
